import Mathlib

/-!
Shallow embedding of the salary-dashboard pipeline (`src/app.py`): schema
normalization (column renaming, table-wide value replacement), the four-dimension
filter, KPI aggregation, the top-10-roles table and the geographic chart region.

Cells are either strings or numbers (`Val`); a table is a rectangular list of
rows together with a list of column names (`DataFrame`).  Fallible pandas
operations (column access on a missing column raises `KeyError`) are modelled
with `Option`.
-/

namespace SalaryDashboard

/-- A cell value: pandas object cells here are either strings or numbers
(salaries, years).  Numbers are modelled as rationals. -/
inductive Val where
  | str : String → Val
  | num : Rat → Val
deriving DecidableEq, Repr

/-- An in-memory table: column names plus rows of cells, row-major. -/
structure DataFrame where
  cols : List String
  rows : List (List Val)
deriving DecidableEq, Repr

/-- The mapping `COL_MAP` from `app.py`: source-language column names to canonical names. -/
def COL_MAP : List (String × String) :=
  [("ano", "year"),
   ("senioridade", "seniority"),
   ("contrato", "contract_type"),
   ("cargo", "role"),
   ("salario", "salary"),
   ("moeda", "currency"),
   ("usd", "usd"),
   ("residencia", "country"),
   ("residencia_iso3", "country_iso3"),
   ("experiencia", "experience"),
   ("tamanho_empresa", "company_size"),
   ("remoto", "work_model")]

/-- The mapping `VALUE_MAP` from `app.py`: source-language categorical codes to canonical
display labels. -/
def VALUE_MAP : List (String × String) :=
  [("executivo", "executive"),
   ("junior", "entry level"),
   ("pleno", "mid-level"),
   ("senior", "senior"),
   ("integral", "full time"),
   ("parcial", "part time"),
   ("contrato", "contract"),
   ("remoto", "remote"),
   ("hibrido", "hybrid"),
   ("presencial", "onsite"),
   ("media", "medium"),
   ("grande", "large"),
   ("pequena", "small")]

/-- Rename one column label: a name in the mapping goes to its target, any other
name is left unchanged (`df.rename(columns=...)` semantics). -/
def applyRename (m : List (String × String)) (c : String) : String :=
  match m.lookup c with
  | some t => t
  | none => c

/-- Pandas `df.rename(columns=m)`: rename the column labels, cells untouched. -/
def renameCols (m : List (String × String)) (df : DataFrame) : DataFrame :=
  { df with cols := df.cols.map (applyRename m) }

/-- Pandas `df.replace(m)` on a single cell: a string cell equal to a key of `m` is
replaced by the key's target; any other cell is unchanged. -/
def replaceVal (m : List (String × String)) : Val → Val
  | Val.str s =>
    match m.lookup s with
    | some t => Val.str t
    | none => Val.str s
  | Val.num q => Val.num q

/-- Pandas `df.replace(m)`: the replacement is applied to every cell of the table,
whatever column it belongs to. -/
def replaceTable (m : List (String × String)) (df : DataFrame) : DataFrame :=
  { df with rows := df.rows.map (fun r => r.map (replaceVal m)) }

/-- The Schema Normalizer: `df.rename(columns=COL_MAP)` followed by
`df.replace(VALUE_MAP)` (lines 29 and 47 of `app.py`). -/
def normalize (df : DataFrame) : DataFrame :=
  replaceTable VALUE_MAP (renameCols COL_MAP df)

/-- Column access `df[c]`: the list of cells of column `c`, or `none` when the column is
missing (pandas raises `KeyError`). -/
def DataFrame.getCol (df : DataFrame) (c : String) : Option (List Val) :=
  (df.cols.findIdx? (fun s => decide (s = c))).map
    (fun i => df.rows.map (fun r => r.getD i (Val.str "")))

/-- The cell in row `i`, column position `j`, when both exist. -/
def cellAt (df : DataFrame) (i j : Nat) : Option Val :=
  df.rows[i]?.bind (fun r => r[j]?)

/-- The value of row `r` of `df` in the dimension named by column `c`. -/
def dimVal (df : DataFrame) (r : List Val) (c : String) : Option Val :=
  (df.cols.findIdx? (fun s => decide (s = c))).map (fun i => r.getD i (Val.str ""))

example :
    normalize ⟨["cargo"], [[Val.str "contrato"]]⟩ =
      ⟨["role"], [[Val.str "contract"]]⟩ := by decide

/-! ### Filter engine -/

/-- The four sidebar multiselect states: allowed values per dimension. -/
structure FilterSelection where
  years : List Val
  seniorities : List Val
  contracts : List Val
  sizes : List Val

/-- A total order on cell values used to model Python `sorted`: numbers by
value, strings lexicographically.  The source only ever sorts homogeneous
columns (`year` numeric, the rest strings); the cross-type case, on which
Python would raise, is given a fixed arbitrary order to keep the relation
total. -/
def valLe : Val → Val → Prop
  | Val.num a, Val.num b => a ≤ b
  | Val.num _, Val.str _ => True
  | Val.str _, Val.num _ => False
  | Val.str a, Val.str b => a ≤ b

instance valLe.instDecidableRel : DecidableRel valLe := fun a b =>
  match a, b with
  | Val.num a, Val.num b => inferInstanceAs (Decidable (a ≤ b))
  | Val.num _, Val.str _ => Decidable.isTrue trivial
  | Val.str _, Val.num _ => Decidable.isFalse (fun h => h)
  | Val.str a, Val.str b => inferInstanceAs (Decidable (a ≤ b))

/-- Python `sorted(df[c].unique())`: the distinct values of column `c`, sorted
ascending; `none` when the column is missing. -/
def uniqueSorted (df : DataFrame) (c : String) : Option (List Val) :=
  (df.getCol c).map (fun cells => List.insertionSort valLe cells.dedup)

/-- Line 52: `years_available = sorted(df["year"].unique())`. -/
def years_available (df : DataFrame) : Option (List Val) :=
  uniqueSorted df "year"

/-- Line 55: `seniority_available = sorted(df["seniority"].unique())`. -/
def seniority_available (df : DataFrame) : Option (List Val) :=
  uniqueSorted df "seniority"

/-- Line 58: `contracts_available = sorted(df["contract_type"].unique())`. -/
def contracts_available (df : DataFrame) : Option (List Val) :=
  uniqueSorted df "contract_type"

/-- Line 61: `sizes_available = sorted(df["company_size"].unique())`. -/
def sizes_available (df : DataFrame) : Option (List Val) :=
  uniqueSorted df "company_size"

/-- Lines 65–70: `df_filtered = df[df["year"].isin(...) & df["seniority"].isin(...)
& df["contract_type"].isin(...) & df["company_size"].isin(...)]`.  Keeps the rows
whose value in each of the four dimensions is a member of the corresponding
selected set; `none` when one of the four columns is missing. -/
def df_filtered (df : DataFrame) (sel : FilterSelection) : Option DataFrame :=
  match df.cols.findIdx? (fun s => decide (s = "year")),
        df.cols.findIdx? (fun s => decide (s = "seniority")),
        df.cols.findIdx? (fun s => decide (s = "contract_type")),
        df.cols.findIdx? (fun s => decide (s = "company_size")) with
  | some iy, some isn, some ic, some iz =>
      some { df with
        rows := df.rows.filter (fun r =>
          decide (r.getD iy (Val.str "") ∈ sel.years) &&
          decide (r.getD isn (Val.str "") ∈ sel.seniorities) &&
          decide (r.getD ic (Val.str "") ∈ sel.contracts) &&
          decide (r.getD iz (Val.str "") ∈ sel.sizes)) }
  | _, _, _, _ => none

/-! ### Aggregation engine -/

/-- Extract the strings of a column; `none` when a cell is not a string. -/
def strCells : List Val → Option (List String)
  | [] => some []
  | Val.str s :: rest => (strCells rest).map (fun l => s :: l)
  | Val.num _ :: _ => none

/-- Extract the numbers of a column; `none` when a cell is not numeric. -/
def ratCells : List Val → Option (List Rat)
  | [] => some []
  | Val.num q :: rest => (ratCells rest).map (fun l => q :: l)
  | Val.str _ :: _ => none

def listSum (l : List Rat) : Rat := l.foldr (· + ·) 0

/-- Pandas `Series.mean()` of a non-empty numeric column. -/
def listMean (l : List Rat) : Rat := listSum l / (l.length : Rat)

/-- Pandas `Series.max()` of a non-empty numeric column (0 on the unreached empty case). -/
def listMax : List Rat → Rat
  | [] => 0
  | a :: as => as.foldl max a

/-- Number of occurrences of `x` in `l`. -/
def countStr (l : List String) (x : String) : Nat :=
  (l.filter (fun y => decide (y = x))).length

/-- The highest occurrence count in `l`. -/
def maxCount (l : List String) : Nat :=
  (l.map (countStr l)).foldr max 0

/-- The elements of `l` occurring with the highest frequency. -/
def modes (l : List String) : List String :=
  l.filter (fun x => decide (countStr l x = maxCount l))

/-- Smallest string of a list (`""` on the unreached empty case). -/
def minStr : List String → String
  | [] => ""
  | [a] => a
  | a :: b :: rest => min a (minStr (b :: rest))

/-- Pandas `Series.mode()[0]`: pandas returns the modes sorted ascending, so index 0
is the smallest value among those of maximal frequency. -/
def modeStr (l : List String) : String := minStr (modes l)

/-- Lines 79–87: the four KPIs.  On an empty table the fallback values
`(0, 0, 0, "")` are produced without touching any column; on a non-empty table
the `usd` and `role` columns are read (`none` models a raised exception). -/
def kpis (df : DataFrame) : Option (Rat × Rat × Nat × String) :=
  if df.rows.isEmpty then some (0, 0, 0, "")
  else
    (df.getCol "usd").bind fun usdCells =>
    (ratCells usdCells).bind fun qs =>
    (df.getCol "role").bind fun roleCells =>
    (strCells roleCells).map fun roles =>
    (listMean qs, listMax qs, df.rows.length, modeStr roles)

/-- Pandas `df.groupby(key)["usd"].mean()`: per-group mean of `usd`, group keys sorted
ascending (pandas `groupby` default); `none` when the key or `usd` column is
missing or of the wrong shape. -/
def groupMeanBy (df : DataFrame) (key : String) : Option (List (String × Rat)) :=
  (df.getCol key).bind fun keyCells =>
  (strCells keyCells).bind fun keys =>
  (df.getCol "usd").bind fun usdCells =>
  (ratCells usdCells).map fun qs =>
    (List.insertionSort (fun a b : String => a ≤ b) keys.dedup).map
      (fun k => (k, listMean (((keys.zip qs).filter
        (fun p => decide (p.1 = k))).map Prod.snd)))

/-- Ascending comparison of role/mean pairs by their mean. -/
def leSnd (a b : String × Rat) : Prop := a.2 ≤ b.2

/-- Descending comparison of role/mean pairs by their mean. -/
def geSnd (a b : String × Rat) : Prop := b.2 ≤ a.2

instance leSnd.instDecidableRel : DecidableRel leSnd := fun a b =>
  inferInstanceAs (Decidable (a.2 ≤ b.2))

instance geSnd.instDecidableRel : DecidableRel geSnd := fun a b =>
  inferInstanceAs (Decidable (b.2 ≤ a.2))

/-- Lines 104–107: `df_filtered.groupby("role")["usd"].mean().nlargest(10)
.sort_values(ascending=True)`: keep the 10 roles with the largest mean, then
sort them ascending by mean. -/
def top_roles (df : DataFrame) : Option (List (String × Rat)) :=
  (groupMeanBy df "role").map fun gs =>
    List.insertionSort leSnd ((List.insertionSort geSnd gs).take 10)

/-- Row selection `df[df[c] == v]`: the rows whose cell in column `c` equals `v`; `none`
when the column is missing. -/
def filterEq (df : DataFrame) (c : String) (v : Val) : Option DataFrame :=
  match df.cols.findIdx? (fun s => decide (s = c)) with
  | some i =>
      some { df with rows := df.rows.filter (fun r => decide (r.getD i (Val.str "") = v)) }
  | none => none

/-- Outcome of the geographic chart region (lines 154–173): a choropleth over
per-country means, the informational "No Data Scientist records in the current
filter." message, or the generic "No data available for countries." warning. -/
inductive GeoOutcome where
  | chart : List (String × Rat) → GeoOutcome
  | info : GeoOutcome
  | warning : GeoOutcome
deriving DecidableEq, Repr

/-- Lines 154–173: the geographic chart region.  An empty FilteredView takes the
`st.warning` branch; otherwise the view is restricted to rows with role exactly
`"Data Scientist"`; if that subset is empty the `st.info` branch is taken, and
otherwise the subset is grouped by `country_iso3` when that column exists, by
`residencia_iso3` otherwise, and mean `usd` is charted per country.  `none`
models a raised exception (missing column). -/
def geoChartRegion (df : DataFrame) : Option GeoOutcome :=
  if df.rows.isEmpty then some GeoOutcome.warning
  else
    (filterEq df "role" (Val.str "Data Scientist")).bind fun dfds =>
      if dfds.rows.isEmpty then some GeoOutcome.info
      else
        (groupMeanBy dfds
          (if "country_iso3" ∈ dfds.cols then "country_iso3" else "residencia_iso3")).map
          GeoOutcome.chart

/-! ### Example tables -/

/-- A tiny already-filtered view: two roles, equal salaries, `"B"` first. -/
def dfTie : DataFrame :=
  ⟨["role", "usd"], [[Val.str "B", Val.num 1], [Val.str "A", Val.num 1]]⟩

/-- A one-row normalized table over the four filter dimensions. -/
def dfOneRow : DataFrame :=
  ⟨["year", "seniority", "contract_type", "company_size", "role", "usd"],
   [[Val.num 2024, Val.str "senior", Val.str "full time", Val.str "medium",
     Val.str "A", Val.num 10]]⟩

/-- A non-empty view with a Data Scientist row but no ISO-country column. -/
def dfNoIso : DataFrame :=
  ⟨["role", "usd"], [[Val.str "Data Scientist", Val.num 100]]⟩

/-- A view carrying the raw `residencia_iso3` column instead of `country_iso3`. -/
def dfResid : DataFrame :=
  ⟨["role", "usd", "residencia_iso3"],
   [[Val.str "Data Scientist", Val.num 100, Val.str "USA"]]⟩

/-- An empty FilteredView (no rows). -/
def dfEmptyView : DataFrame := ⟨["role", "usd"], []⟩

/-! ### Helper lemmas -/

lemma cellAt_normalize (df : DataFrame) (i j : Nat) (v : Val)
    (h : cellAt df i j = some v) :
    cellAt (normalize df) i j = some (replaceVal VALUE_MAP v) := by
  unfold cellAt at h ⊢
  obtain ⟨r, hr, hv⟩ := Option.bind_eq_some.mp h
  simp [normalize, replaceTable, renameCols, List.getElem?_map, hr, hv]

lemma findIdx?_eq_none_of_not_mem (l : List String) (c : String) (h : c ∉ l) :
    l.findIdx? (fun s => decide (s = c)) = none := by
  rw [List.findIdx?_eq_none_iff]
  intro x hx
  simp only [decide_eq_false_iff_not]
  exact fun he => h (he ▸ hx)

lemma getCol_eq_none (df : DataFrame) (c : String) (h : c ∉ df.cols) :
    df.getCol c = none := by
  simp [DataFrame.getCol, findIdx?_eq_none_of_not_mem _ _ h]

lemma filterEq_cols (df : DataFrame) (c : String) (v : Val) (out : DataFrame)
    (h : filterEq df c v = some out) : out.cols = df.cols := by
  unfold filterEq at h
  split at h
  · cases h; rfl
  · cases h

/-! ### C1: table-wide value remapping -/

/-- C1: value remapping is table-wide, not column-scoped.  For every table and
every cell position, a cell equal to a key of `VALUE_MAP` holds the key's target
value in the normalized table, regardless of its column; a cell matching no key
(a non-key string, or a number) is unchanged. -/
theorem value_remap_table_wide (df : DataFrame) (i j : Nat) (v : Val)
    (h : cellAt df i j = some v) :
    (∀ s t, v = Val.str s → VALUE_MAP.lookup s = some t →
        cellAt (normalize df) i j = some (Val.str t)) ∧
    (∀ s, v = Val.str s → VALUE_MAP.lookup s = none →
        cellAt (normalize df) i j = some v) ∧
    (∀ q, v = Val.num q → cellAt (normalize df) i j = some v) := by
  have hn := cellAt_normalize df i j v h
  refine ⟨?_, ?_, ?_⟩
  · rintro s t rfl hl
    rwa [replaceVal, hl] at hn
  · rintro s rfl hl
    rwa [replaceVal, hl] at hn
  · rintro q rfl
    exact hn

/-- The cell `"contrato"` sitting in the role column of a table is nevertheless
remapped to `"contract"`. -/
theorem value_remap_table_wide_witness :
    cellAt (normalize ⟨["cargo"], [[Val.str "contrato"]]⟩) 0 0 =
      some (Val.str "contract") :=
  (value_remap_table_wide ⟨["cargo"], [[Val.str "contrato"]]⟩ 0 0
    (Val.str "contrato") rfl).1 "contrato" "contract" rfl rfl

/-! ### C3: KPI fallbacks on the empty FilteredView -/

/-- C3: on an empty FilteredView the KPI computation returns exactly
`(average, max, count, most-common-role) = (0, 0, 0, "")`, and does so without
error (`some`, never `none`). -/
theorem kpis_empty_fallback (df : DataFrame) (h : df.rows = []) :
    kpis df = some (0, 0, 0, "") := by
  simp [kpis, h]

/-- The KPI fallback evaluated on a concrete empty view. -/
theorem kpis_empty_fallback_witness : kpis dfEmptyView = some (0, 0, 0, "") :=
  kpis_empty_fallback dfEmptyView rfl

/-! ### C2: the filter is a conjunction of membership tests -/

/-- C2: whenever the filter succeeds, the FilteredView has the same columns, its
rows form a sublist of the table's rows, and a record belongs to it iff it
belongs to the table and, in each of the four dimensions, its value is a member
of the corresponding selected set. -/
theorem filter_conjunction (df : DataFrame) (sel : FilterSelection) (out : DataFrame)
    (h : df_filtered df sel = some out) :
    out.cols = df.cols ∧ out.rows.Sublist df.rows ∧
    ∀ r, r ∈ out.rows ↔ r ∈ df.rows ∧
      (∃ v, dimVal df r "year" = some v ∧ v ∈ sel.years) ∧
      (∃ v, dimVal df r "seniority" = some v ∧ v ∈ sel.seniorities) ∧
      (∃ v, dimVal df r "contract_type" = some v ∧ v ∈ sel.contracts) ∧
      (∃ v, dimVal df r "company_size" = some v ∧ v ∈ sel.sizes) := by
  unfold df_filtered at h
  split at h
  case _ iy isn ic iz hy hs hc hz =>
    injection h with h
    subst h
    refine ⟨rfl, List.filter_sublist _, fun r => ?_⟩
    rw [List.mem_filter]
    simp only [Bool.and_eq_true, decide_eq_true_eq]
    constructor
    · rintro ⟨hr, ⟨⟨h1, h2⟩, h3⟩, h4⟩
      exact ⟨hr,
        ⟨_, by simp [dimVal, hy], h1⟩,
        ⟨_, by simp [dimVal, hs], h2⟩,
        ⟨_, by simp [dimVal, hc], h3⟩,
        ⟨_, by simp [dimVal, hz], h4⟩⟩
    · rintro ⟨hr, ⟨v1, hv1, m1⟩, ⟨v2, hv2, m2⟩, ⟨v3, hv3, m3⟩, ⟨v4, hv4, m4⟩⟩
      rw [dimVal, hy] at hv1
      rw [dimVal, hs] at hv2
      rw [dimVal, hc] at hv3
      rw [dimVal, hz] at hv4
      injection hv1 with hv1
      injection hv2 with hv2
      injection hv3 with hv3
      injection hv4 with hv4
      subst hv1; subst hv2; subst hv3; subst hv4
      exact ⟨hr, ⟨⟨m1, m2⟩, m3⟩, m4⟩
  case _ =>
    cases h

/-- The conjunction property evaluated on a concrete one-row table: the row
passes a selection containing all four of its dimension values. -/
theorem filter_conjunction_witness :
    [Val.num 2024, Val.str "senior", Val.str "full time", Val.str "medium",
     Val.str "A", Val.num 10] ∈
      ({ cols := dfOneRow.cols, rows := dfOneRow.rows } : DataFrame).rows :=
  ((filter_conjunction dfOneRow
      ⟨[Val.num 2024], [Val.str "senior"], [Val.str "full time"], [Val.str "medium"]⟩
      { cols := dfOneRow.cols, rows := dfOneRow.rows } (by decide)).2.2 _).mpr
    ⟨by decide,
     ⟨Val.num 2024, by decide, by decide⟩,
     ⟨Val.str "senior", by decide, by decide⟩,
     ⟨Val.str "full time", by decide, by decide⟩,
     ⟨Val.str "medium", by decide, by decide⟩⟩

/-! ### C8: selecting the full universes is the identity -/

/-- C8: filtering with the default selection — for each dimension the full set
of distinct values occurring in the table — returns the table itself. -/
theorem full_universe_identity (df : DataFrame) (ys ss cs zs : List Val)
    (hy : years_available df = some ys)
    (hs : seniority_available df = some ss)
    (hc : contracts_available df = some cs)
    (hz : sizes_available df = some zs) :
    df_filtered df ⟨ys, ss, cs, zs⟩ = some df := by
  rw [years_available, uniqueSorted, DataFrame.getCol, Option.map_eq_some'] at hy
  rw [seniority_available, uniqueSorted, DataFrame.getCol, Option.map_eq_some'] at hs
  rw [contracts_available, uniqueSorted, DataFrame.getCol, Option.map_eq_some'] at hc
  rw [sizes_available, uniqueSorted, DataFrame.getCol, Option.map_eq_some'] at hz
  obtain ⟨cy, hcy, hys⟩ := hy
  obtain ⟨cs', hcs, hss⟩ := hs
  obtain ⟨cc, hcc, hcs'⟩ := hc
  obtain ⟨cz, hcz, hzs⟩ := hz
  obtain ⟨iy, hiy, rfl⟩ := Option.map_eq_some'.mp hcy
  obtain ⟨isn, hisn, rfl⟩ := Option.map_eq_some'.mp hcs
  obtain ⟨ic, hic, rfl⟩ := Option.map_eq_some'.mp hcc
  obtain ⟨iz, hiz, rfl⟩ := Option.map_eq_some'.mp hcz
  subst hys; subst hss; subst hcs'; subst hzs
  unfold df_filtered
  rw [hiy, hisn, hic, hiz]
  refine congrArg some ?_
  obtain ⟨cols, rows⟩ := df
  congr 1
  apply List.filter_eq_self.mpr
  intro r hr
  simp only [Bool.and_eq_true, decide_eq_true_eq]
  refine ⟨⟨⟨?_, ?_⟩, ?_⟩, ?_⟩ <;>
    exact (List.mem_insertionSort valLe).mpr
      (List.mem_dedup.mpr (List.mem_map_of_mem _ hr))

/-- The identity property evaluated on the concrete one-row table with its
actual value universes. -/
theorem full_universe_identity_witness :
    df_filtered dfOneRow
      ⟨[Val.num 2024], [Val.str "senior"], [Val.str "full time"], [Val.str "medium"]⟩ =
      some dfOneRow :=
  full_universe_identity dfOneRow _ _ _ _ (by decide) (by decide) (by decide) (by decide)

/-! ### Frequency and mode lemmas -/

lemma le_foldrMax (g : List Nat) (x : Nat) (h : x ∈ g) : x ≤ g.foldr max 0 := by
  induction g with
  | nil => cases h
  | cons a g ih =>
    rw [List.foldr_cons]
    rcases List.mem_cons.mp h with rfl | h
    · exact le_max_left _ _
    · exact le_trans (ih h) (le_max_right _ _)

lemma foldrMax_mem (g : List Nat) : g.foldr max 0 = 0 ∨ g.foldr max 0 ∈ g := by
  induction g with
  | nil => exact Or.inl rfl
  | cons a g ih =>
    rw [List.foldr_cons]
    rcases max_choice a (g.foldr max 0) with h | h
    · right
      rw [h]
      exact List.mem_cons_self a g
    · rcases ih with h0 | hm
      · left
        rw [h, h0]
      · right
        rw [h]
        exact List.mem_cons_of_mem _ hm

lemma countStr_pos (l : List String) (x : String) (h : x ∈ l) : 0 < countStr l x := by
  have hx : x ∈ l.filter (fun y => decide (y = x)) :=
    List.mem_filter.mpr ⟨h, by simp⟩
  exact List.length_pos.mpr (List.ne_nil_of_mem hx)

lemma le_maxCount (l : List String) (x : String) (h : x ∈ l) :
    countStr l x ≤ maxCount l :=
  le_foldrMax _ _ (List.mem_map_of_mem _ h)

lemma maxCount_attained (l : List String) (h : l ≠ []) :
    ∃ x ∈ l, countStr l x = maxCount l := by
  rcases foldrMax_mem (l.map (countStr l)) with h0 | hm
  · exfalso
    obtain ⟨a, ha⟩ := List.exists_mem_of_ne_nil l h
    have h1 := countStr_pos l a ha
    have h2 := le_maxCount l a ha
    have h0' : maxCount l = 0 := h0
    omega
  · obtain ⟨x, hx, hcx⟩ := List.mem_map.mp hm
    exact ⟨x, hx, hcx⟩

lemma modes_ne_nil (l : List String) (h : l ≠ []) : modes l ≠ [] := by
  obtain ⟨x, hx, hcx⟩ := maxCount_attained l h
  exact List.ne_nil_of_mem (List.mem_filter.mpr ⟨hx, by simp [hcx]⟩)

lemma minStr_mem : ∀ (l : List String), l ≠ [] → minStr l ∈ l
  | [], h => absurd rfl h
  | [a], _ => by simp [minStr]
  | a :: b :: rest, _ => by
    show min a (minStr (b :: rest)) ∈ _
    rcases min_choice a (minStr (b :: rest)) with h | h
    · rw [h]; exact List.mem_cons_self _ _
    · rw [h]; exact List.mem_cons_of_mem _ (minStr_mem (b :: rest) (by simp))

lemma minStr_le : ∀ (l : List String) (x : String), x ∈ l → minStr l ≤ x
  | [], _, h => by cases h
  | [a], x, h => by
    rw [List.mem_singleton] at h
    subst h
    exact le_of_eq rfl
  | a :: b :: rest, x, h => by
    show min a (minStr (b :: rest)) ≤ x
    rcases List.mem_cons.mp h with rfl | h
    · exact min_le_left _ _
    · exact le_trans (min_le_right _ _) (minStr_le (b :: rest) x h)

lemma modeStr_spec (l : List String) (h : l ≠ []) :
    modeStr l ∈ l ∧ countStr l (modeStr l) = maxCount l ∧
      ∀ x ∈ l, countStr l x = maxCount l → modeStr l ≤ x := by
  have hm := modes_ne_nil l h
  have h1 : modeStr l ∈ modes l := minStr_mem _ hm
  have h2 := List.mem_filter.mp h1
  refine ⟨h2.1, of_decide_eq_true h2.2, fun x hx hcx => minStr_le _ _ ?_⟩
  exact List.mem_filter.mpr ⟨hx, by simp [hcx]⟩

lemma strCells_length : ∀ (cells : List Val) (ss : List String),
    strCells cells = some ss → ss.length = cells.length
  | [], ss, h => by
    simp only [strCells, Option.some.injEq] at h
    subst h; rfl
  | Val.str s :: rest, ss, h => by
    rw [strCells] at h
    obtain ⟨l, hl, rfl⟩ := Option.map_eq_some'.mp h
    simp [strCells_length rest l hl]
  | Val.num q :: rest, ss, h => by simp [strCells] at h

lemma strCells_mem : ∀ (cells : List Val) (ss : List String),
    strCells cells = some ss → ∀ s ∈ ss, Val.str s ∈ cells
  | [], ss, h, s, hs => by
    simp only [strCells, Option.some.injEq] at h
    subst h; cases hs
  | Val.str t :: rest, ss, h, s, hs => by
    rw [strCells] at h
    obtain ⟨l, hl, rfl⟩ := Option.map_eq_some'.mp h
    rcases List.mem_cons.mp hs with rfl | hs
    · exact List.mem_cons_self _ _
    · exact List.mem_cons_of_mem _ (strCells_mem rest l hl s hs)
  | Val.num q :: rest, ss, h, _, _ => by simp [strCells] at h

/-! ### Concrete evaluations involving rational arithmetic

`Rat.add`, `Rat.mul` and `Rat.inv` are `@[irreducible]`, so means over concrete
tables are evaluated through `norm_num` rather than `decide`. -/

lemma listMean_one_one : listMean [(1 : Rat), 1] = 1 := by
  norm_num [listMean, listSum]

lemma listMean_single (q : Rat) : listMean [q] = q := by
  simp [listMean, listSum]

lemma not_B_le_A : ¬ (("B" : String) ≤ "A") := by
  simp
  decide

lemma modeStr_BA : modeStr ["B", "A"] = "A" := by
  have h1 : modes ["B", "A"] = ["B", "A"] := by decide
  rw [modeStr, h1]
  show min "B" "A" = "A"
  rw [min_def, if_neg not_B_le_A]

lemma kpis_dfTie : kpis dfTie = some (1, 1, 2, "A") := by
  have h0 : kpis dfTie =
      some (listMean [1, 1], listMax [1, 1], 2, modeStr ["B", "A"]) := rfl
  rw [h0, listMean_one_one]
  have hmax : listMax [(1 : Rat), 1] = 1 := by simp [listMax]
  rw [hmax, modeStr_BA]

lemma sort_BA :
    List.insertionSort (fun a b : String => a ≤ b) ["B", "A"] = ["A", "B"] := by
  show List.orderedInsert _ "B" (List.orderedInsert _ "A" []) = _
  rw [List.orderedInsert, List.orderedInsert, if_neg not_B_le_A, List.orderedInsert]

lemma groupMeanBy_dfTie :
    groupMeanBy dfTie "role" = some [("A", 1), ("B", 1)] := by
  have h0 : groupMeanBy dfTie "role" =
      some ((List.insertionSort (fun a b : String => a ≤ b) ["B", "A"]).map
        (fun k => (k, listMean (((["B", "A"].zip [(1 : Rat), 1]).filter
          (fun p => decide (p.1 = k))).map Prod.snd)))) := rfl
  rw [h0, sort_BA]
  have h1 : (["A", "B"].map
      (fun k => (k, listMean (((["B", "A"].zip [(1 : Rat), 1]).filter
        (fun p => decide (p.1 = k))).map Prod.snd)))) =
      [("A", listMean [1]), ("B", listMean [1])] := rfl
  rw [h1, listMean_single]

lemma top_roles_dfTie : top_roles dfTie = some [("A", 1), ("B", 1)] := by
  rw [top_roles, groupMeanBy_dfTie]
  rfl

lemma groupMeanBy_dfResid :
    groupMeanBy dfResid "residencia_iso3" = some [("USA", 100)] := by
  have h0 : groupMeanBy dfResid "residencia_iso3" =
      some [("USA", listMean [100])] := rfl
  rw [h0, listMean_single]

/-! ### C4: the most-common-role tie-break -/

/-- The tie-break rule as the specification words it: the first value, in
original record order, whose frequency is maximal (`""` on the unreached empty
case).  Stated for comparison with the code's `modeStr`. -/
def specModeFirstEncountered (l : List String) : String :=
  match l.find? (fun x => decide (countStr l x = maxCount l)) with
  | some x => x
  | none => ""

/-- C4 fails as stated: on `dfTie` the roles are `["B", "A"]`, each occurring
once, so the first-encountered maximal role is `"B"`; but the KPI — pandas
`mode()[0]`, which sorts the modes ascending — returns `"A"`. -/
theorem most_common_role_counterexample :
    kpis dfTie = some (1, 1, 2, "A") ∧
      specModeFirstEncountered ["B", "A"] = "B" ∧ ("A" : String) ≠ "B" :=
  ⟨kpis_dfTie, by decide, by decide⟩

/-- C4 amended: for every non-empty FilteredView the most-common-role KPI
returns a role of maximal frequency, and among the roles of maximal frequency
it returns the lexicographically smallest one (pandas sorts the modes), not the
first-encountered one. -/
theorem most_common_role_sorted_mode (df : DataFrame) (a m : Rat) (n : Nat)
    (s : String) (roleCells : List Val) (roles : List String)
    (hne : df.rows ≠ [])
    (hcol : df.getCol "role" = some roleCells)
    (hstr : strCells roleCells = some roles)
    (hk : kpis df = some (a, m, n, s)) :
    s ∈ roles ∧ (∀ x ∈ roles, countStr roles x ≤ countStr roles s) ∧
      (∀ x ∈ roles, countStr roles x = countStr roles s → s ≤ x) := by
  rw [kpis, if_neg (by simp [List.isEmpty_iff, hne])] at hk
  obtain ⟨usdCells, hu, hk⟩ := Option.bind_eq_some.mp hk
  obtain ⟨qs, hq, hk⟩ := Option.bind_eq_some.mp hk
  obtain ⟨rc, hrc, hk⟩ := Option.bind_eq_some.mp hk
  obtain ⟨rs, hrs, hk⟩ := Option.map_eq_some'.mp hk
  rw [hcol] at hrc
  injection hrc with hrc
  subst hrc
  rw [hstr] at hrs
  injection hrs with hrs
  subst hrs
  have hs : s = modeStr roles := (congrArg (fun t => t.2.2.2) hk).symm
  subst hs
  have hroles : roles ≠ [] := by
    obtain ⟨i, hi, hrc2⟩ := Option.map_eq_some'.mp hcol
    have hlen : roles.length = df.rows.length := by
      rw [strCells_length _ _ hstr, ← hrc2, List.length_map]
    intro h0
    rw [h0, List.length_nil] at hlen
    exact hne (List.length_eq_zero.mp hlen.symm)
  obtain ⟨h1, h2, h3⟩ := modeStr_spec roles hroles
  refine ⟨h1, fun x hx => ?_, fun x hx hcx => h3 x hx (hcx.trans h2)⟩
  rw [h2]
  exact le_maxCount roles x hx

/-- The amended tie-break evaluated on `dfTie`: `"B"` occurs no more often than
the returned `"A"`. -/
theorem most_common_role_sorted_mode_witness :
    countStr ["B", "A"] "B" ≤ countStr ["B", "A"] "A" :=
  (most_common_role_sorted_mode dfTie 1 1 2 "A" [Val.str "B", Val.str "A"]
    ["B", "A"] (by decide) (by decide) (by decide) kpis_dfTie).2.1 "B" (by decide)

/-! ### C5: shape of the top-10-roles table -/

instance leSnd.instIsTotal : IsTotal (String × Rat) leSnd :=
  ⟨fun a b => le_total a.2 b.2⟩

instance leSnd.instIsTrans : IsTrans (String × Rat) leSnd :=
  ⟨fun _ _ _ hab hbc => le_trans hab hbc⟩

/-- C5: the top-10-roles table has at most 10 entries, is sorted ascending by
mean `usd`, and every role listed in it occurs in the FilteredView's role
column. -/
theorem top_roles_shape (df : DataFrame) (ts : List (String × Rat))
    (hne : df.rows ≠ []) (h : top_roles df = some ts) :
    ts.length ≤ 10 ∧ List.Sorted leSnd ts ∧
      ∀ p ∈ ts, ∃ cells, df.getCol "role" = some cells ∧ Val.str p.1 ∈ cells := by
  obtain ⟨gs, hgs, rfl⟩ := Option.map_eq_some'.mp h
  refine ⟨?_, List.sorted_insertionSort leSnd _, ?_⟩
  · rw [(List.perm_insertionSort leSnd _).length_eq, List.length_take]
    exact min_le_left _ _
  · intro p hp
    have hp1 : p ∈ gs :=
      (List.mem_insertionSort geSnd).mp
        (List.mem_of_mem_take ((List.mem_insertionSort leSnd).mp hp))
    rw [groupMeanBy] at hgs
    obtain ⟨keyCells, hkc, hgs⟩ := Option.bind_eq_some.mp hgs
    obtain ⟨keys, hks, hgs⟩ := Option.bind_eq_some.mp hgs
    obtain ⟨usdCells, huc, hgs⟩ := Option.bind_eq_some.mp hgs
    obtain ⟨qs, hqs, hgs⟩ := Option.map_eq_some'.mp hgs
    subst hgs
    obtain ⟨k, hk, hpk⟩ := List.mem_map.mp hp1
    have hk2 : k ∈ keys :=
      List.mem_dedup.mp ((List.mem_insertionSort _).mp hk)
    refine ⟨keyCells, hkc, ?_⟩
    rw [← hpk]
    exact strCells_mem keyCells keys hks k hk2

/-- The top-roles table of `dfTie` is sorted ascending by mean. -/
theorem top_roles_shape_witness :
    List.Sorted leSnd [(("A" : String), (1 : Rat)), ("B", 1)] :=
  (top_roles_shape dfTie [("A", 1), ("B", 1)] (by decide) top_roles_dfTie).2.1

/-! ### C6: the two empty-state messages of the geographic region -/

/-- C6 fails as stated: on an empty FilteredView the Data-Scientist subset is
(vacuously) empty, yet the geographic region emits the generic
`st.warning` branch, not the informational `st.info` one. -/
theorem geo_empty_view_counterexample :
    dfEmptyView.rows = [] ∧
      geoChartRegion dfEmptyView = some GeoOutcome.warning ∧
      GeoOutcome.warning ≠ GeoOutcome.info := by
  refine ⟨rfl, rfl, by decide⟩

/-- C6 amended: when the FilteredView is non-empty but its Data-Scientist
subset is empty, the geographic region emits the informational "no records"
condition, which is distinct from the generic "no data available" warning; an
empty FilteredView instead takes the generic warning branch. -/
theorem geo_info_on_no_ds (df dfds : DataFrame)
    (hne : df.rows ≠ [])
    (hf : filterEq df "role" (Val.str "Data Scientist") = some dfds)
    (hds : dfds.rows = []) :
    geoChartRegion df = some GeoOutcome.info ∧ GeoOutcome.info ≠ GeoOutcome.warning := by
  refine ⟨?_, by decide⟩
  rw [geoChartRegion, if_neg (by simp [List.isEmpty_iff, hne]), hf]
  simp [hds]

/-- The informational branch reached on a concrete non-empty view with no
Data Scientist rows. -/
theorem geo_info_on_no_ds_witness :
    geoChartRegion dfTie = some GeoOutcome.info :=
  (geo_info_on_no_ds dfTie ⟨["role", "usd"], []⟩ (by decide) (by decide) rfl).1

/-! ### C7: missing columns surface as failures -/

lemma lookup_mem_snd :
    ∀ (m : List (String × String)) (c t : String),
      m.lookup c = some t → t ∈ m.map Prod.snd
  | [], _, _, h => by simp [List.lookup] at h
  | (k, v) :: m, c, t, h => by
    rw [List.lookup] at h
    cases hck : c == k with
    | true =>
      simp only [hck] at h
      injection h with h
      exact List.mem_map.mpr ⟨(k, v), List.mem_cons_self _ _, h⟩
    | false =>
      simp only [hck] at h
      exact List.mem_cons_of_mem _ (lookup_mem_snd m c t h)

lemma applyRename_ne_residencia (c : String) :
    applyRename COL_MAP c ≠ "residencia_iso3" := by
  unfold applyRename
  cases hl : COL_MAP.lookup c with
  | some t =>
    intro hc
    subst hc
    exact absurd (lookup_mem_snd _ _ _ hl) (by decide)
  | none =>
    intro hc
    subst hc
    exact absurd hl (by decide)

lemma residencia_not_in_normalize (src : DataFrame) :
    "residencia_iso3" ∉ (normalize src).cols := by
  intro hmem
  rw [normalize, replaceTable, renameCols] at hmem
  obtain ⟨c, _, hc⟩ := List.mem_map.mp hmem
  exact applyRename_ne_residencia c hc

/-- C7: over the normalized form of any source table, each of the four filter
universes references its canonical column and returns the missing-column
condition (`none`) when that column is absent; and when `country_iso3` is
absent the geographic aggregation likewise fails (rather than silently
substituting a value), because normalization leaves no `residencia_iso3`
column to fall back on. -/
theorem missing_column_fails (src df : DataFrame) (hdf : df = normalize src) :
    ("year" ∉ df.cols → years_available df = none) ∧
    ("seniority" ∉ df.cols → seniority_available df = none) ∧
    ("contract_type" ∉ df.cols → contracts_available df = none) ∧
    ("company_size" ∉ df.cols → sizes_available df = none) ∧
    ("country_iso3" ∉ df.cols → df.rows ≠ [] →
      ∀ dfds, filterEq df "role" (Val.str "Data Scientist") = some dfds →
        dfds.rows ≠ [] → geoChartRegion df = none) := by
  refine ⟨?_, ?_, ?_, ?_, ?_⟩
  · intro h
    simp [years_available, uniqueSorted, getCol_eq_none df _ h]
  · intro h
    simp [seniority_available, uniqueSorted, getCol_eq_none df _ h]
  · intro h
    simp [contracts_available, uniqueSorted, getCol_eq_none df _ h]
  · intro h
    simp [sizes_available, uniqueSorted, getCol_eq_none df _ h]
  · intro hiso hne dfds hf hdne
    rw [geoChartRegion, if_neg (by simp [List.isEmpty_iff, hne]), hf]
    have hcols : dfds.cols = df.cols := filterEq_cols df _ _ dfds hf
    have h1 : "country_iso3" ∉ dfds.cols := by
      rw [hcols]
      exact hiso
    have h2 : "residencia_iso3" ∉ dfds.cols := by
      rw [hcols, hdf]
      exact residencia_not_in_normalize src
    rw [Option.some_bind,
      if_neg (show ¬ dfds.rows.isEmpty = true by simp [List.isEmpty_iff, hdne]),
      if_neg h1, groupMeanBy, getCol_eq_none dfds _ h2]
    rfl

/-- A source table with only a `cargo` column: the normalized table lacks
`year`, so the year universe computation fails. -/
theorem missing_column_fails_witness :
    years_available (normalize ⟨["cargo", "usd"], [[Val.str "A", Val.num 1]]⟩) = none :=
  (missing_column_fails ⟨["cargo", "usd"], [[Val.str "A", Val.num 1]]⟩
    (normalize ⟨["cargo", "usd"], [[Val.str "A", Val.num 1]]⟩) rfl).1 (by decide)

/-! ### C9: the Normalizer is idempotent on canonical tables -/

/-- A cell already in canonical form: a string matching no `VALUE_MAP` source
code, or a number. -/
def canonicalCell : Val → Prop
  | Val.str s => VALUE_MAP.lookup s = none
  | Val.num _ => True

instance canonicalCell.instDecidablePred : DecidablePred canonicalCell := fun v =>
  match v with
  | Val.str s => inferInstanceAs (Decidable (VALUE_MAP.lookup s = none))
  | Val.num _ => Decidable.isTrue trivial

/-- C9: normalizing a table whose column names and string cells are disjoint
from the source codes (no `COL_MAP` key among its column names, no `VALUE_MAP`
key among its cell values) is the identity. -/
lemma map_self {α : Type} (f : α → α) :
    ∀ (l : List α), (∀ a ∈ l, f a = a) → l.map f = l
  | [], _ => rfl
  | a :: l, h => by
    rw [List.map_cons, h a (List.mem_cons_self _ _),
      map_self f l (fun b hb => h b (List.mem_cons_of_mem _ hb))]

theorem normalizer_idempotent (df : DataFrame)
    (hcols : ∀ c ∈ df.cols, COL_MAP.lookup c = none)
    (hcells : ∀ r ∈ df.rows, ∀ v ∈ r, canonicalCell v) :
    normalize df = df := by
  obtain ⟨cols, rows⟩ := df
  simp only [normalize, renameCols, replaceTable]
  congr 1
  · apply map_self
    intro c hc
    show (match COL_MAP.lookup c with
      | some t => t
      | none => c) = c
    rw [hcols c hc]
  · apply map_self
    intro r hr
    apply map_self
    intro v hv
    have hv2 := hcells r hr v hv
    match v with
    | Val.str s =>
      have hv3 : VALUE_MAP.lookup s = none := hv2
      show (match VALUE_MAP.lookup s with
        | some t => Val.str t
        | none => Val.str s) = Val.str s
      rw [hv3]
    | Val.num q => rfl

/-- Idempotence on a concrete canonical table. -/
theorem normalizer_idempotent_witness :
    normalize ⟨["year", "seniority", "role"],
      [[Val.num 2024, Val.str "mid-level", Val.str "Data Scientist"]]⟩ =
      ⟨["year", "seniority", "role"],
       [[Val.num 2024, Val.str "mid-level", Val.str "Data Scientist"]]⟩ :=
  normalizer_idempotent _ (by decide) (by decide)

/-! ### C10: the geographic fallback column -/

/-- C10 fails as stated: `dfNoIso` is non-empty, has a Data Scientist row and
no `country_iso3` column, yet the geographic aggregation fails (the fallback
column `residencia_iso3` does not exist either). -/
theorem geo_fallback_counterexample :
    "country_iso3" ∉ dfNoIso.cols ∧ dfNoIso.rows ≠ [] ∧
      filterEq dfNoIso "role" (Val.str "Data Scientist") = some dfNoIso ∧
      geoChartRegion dfNoIso = none := by
  refine ⟨by decide, by decide, by decide, rfl⟩

/-- C10 amended: when the FilteredView is non-empty, contains a Data Scientist
row, lacks `country_iso3` and the grouping of the Data-Scientist subset by
`residencia_iso3` succeeds, the geographic region charts exactly that
per-country mean of `usd`. -/
theorem geo_fallback_residencia (df dfds : DataFrame) (gs : List (String × Rat))
    (hni : "country_iso3" ∉ df.cols)
    (hne : df.rows ≠ [])
    (hf : filterEq df "role" (Val.str "Data Scientist") = some dfds)
    (hdne : dfds.rows ≠ [])
    (hg : groupMeanBy dfds "residencia_iso3" = some gs) :
    geoChartRegion df = some (GeoOutcome.chart gs) := by
  rw [geoChartRegion, if_neg (by simp [List.isEmpty_iff, hne]), hf]
  have h1 : "country_iso3" ∉ dfds.cols := by
    rw [filterEq_cols df _ _ dfds hf]
    exact hni
  rw [Option.some_bind,
    if_neg (show ¬ dfds.rows.isEmpty = true by simp [List.isEmpty_iff, hdne]),
    if_neg h1, hg]
  rfl

/-- The fallback evaluated on `dfResid`, which carries `residencia_iso3`. -/
theorem geo_fallback_residencia_witness :
    geoChartRegion dfResid = some (GeoOutcome.chart [("USA", 100)]) :=
  geo_fallback_residencia dfResid dfResid [("USA", 100)]
    (by decide) (by decide) (by decide) (by decide) groupMeanBy_dfResid

end SalaryDashboard
